import Mathlib

/-!
Verification of the hemoglobin chromatograph pattern-search pipeline
(`peak_analyzer.py`, `visual_search.py`) against its specification.

Machine floats of the Python source are modelled as exact rationals (ℚ);
numpy arrays as `List ℚ` / `Array ℚ`.  Each definition names the source
function it embeds.
-/

namespace HbPattern

/-! ## Clinical similarity filter (`PeakAnalyzer.is_clinically_similar`) -/

/-- Peak features of one chromatograph as consumed by
`is_clinically_similar`: the `num_peaks` and `heights` entries of the
feature dictionary produced by `analyze_image`. -/
structure FeatureRecord where
  num_peaks : Nat
  heights : List ℚ
deriving DecidableEq

/-- The reason component of the `is_clinically_similar` return value,
structured instead of %-formatted.  `peakTooDifferent` carries the printed
1-based peak number `i+1` together with the two heights and the ratio. -/
inductive ClinReason
  | countTooDifferent (n1 n2 : Nat)
  | peakTooDifferent (peakNumber : Nat) (h1 h2 ratio : ℚ)
  | similar
deriving DecidableEq

/-- The reason text of `is_clinically_similar` up to the %-formatted numeric
tail of the message (float formatting is not modelled). -/
def ClinReason.text : ClinReason → String
  | .countTooDifferent n1 n2 =>
      "Peak count too different (" ++ toString n1 ++ " vs " ++ toString n2 ++ ")"
  | .peakTooDifferent i _ _ _ =>
      "Peak #" ++ toString i ++ " concentration too different"
  | .similar => "Clinically similar"

/-- `np.pad(a, (0, n - len(a)))`: zero-pad on the right to length `n`. -/
def padTo (l : List ℚ) (n : Nat) : List ℚ := l ++ List.replicate (n - l.length) 0

/-- The per-pair loop of `is_clinically_similar` (peak_analyzer.py
lines 287-313): iterate over the aligned height pairs, skipping noise pairs,
and fail at the first pair whose ratio exceeds `maxRatio`.  `i` is the
0-based loop index. -/
def checkPairs (maxRatio : ℚ) : Nat → List (ℚ × ℚ) → Bool × ClinReason
  | _, [] => (true, .similar)
  | i, (h1, h2) :: rest =>
    if h1 < 5/100 ∧ h2 < 5/100 then
      checkPairs maxRatio (i+1) rest
    else if (h1 < 1/100 ∧ h2 < 15/100) ∨ (h2 < 1/100 ∧ h1 < 15/100) then
      checkPairs maxRatio (i+1) rest
    else if min h1 h2 < 1/100 then
      if max h1 h2 < 2/10 then checkPairs maxRatio (i+1) rest
      else if (100 : ℚ) > maxRatio then (false, .peakTooDifferent (i+1) h1 h2 100)
      else checkPairs maxRatio (i+1) rest
    else
      if max h1 h2 / min h1 h2 > maxRatio then
        (false, .peakTooDifferent (i+1) h1 h2 (max h1 h2 / min h1 h2))
      else checkPairs maxRatio (i+1) rest

/-- `PeakAnalyzer.is_clinically_similar` (peak_analyzer.py lines 257-315):
the hard filter.  Checks the peak-count difference, then — only when both
records have at least one peak — compares the zero-padded height sequences
pairwise. -/
def is_clinically_similar (f1 f2 : FeatureRecord) (maxConcentrationRatio : ℚ)
    (maxPeakCountDiff : Nat) : Bool × ClinReason :=
  if ((f1.num_peaks : Int) - (f2.num_peaks : Int)).natAbs > maxPeakCountDiff then
    (false, .countTooDifferent f1.num_peaks f2.num_peaks)
  else if 0 < f1.num_peaks ∧ 0 < f2.num_peaks then
    checkPairs maxConcentrationRatio 0
      ((padTo f1.heights (max f1.heights.length f2.heights.length)).zip
        (padTo f2.heights (max f1.heights.length f2.heights.length)))
  else
    (true, .similar)

/-- Default `max_concentration_ratio` of `is_clinically_similar` (2.5). -/
def defaultMaxConcentrationRatio : ℚ := 5/2

/-- Default `max_peak_count_diff` of `is_clinically_similar`. -/
def defaultMaxPeakCountDiff : Nat := 3

/-- Helper for the symmetry theorem: the boolean verdict of the pair loop is
unchanged when every pair is swapped. -/
theorem checkPairs_fst_swap (r : ℚ) : ∀ (i : Nat) (l : List (ℚ × ℚ)),
    (checkPairs r i (l.map Prod.swap)).1 = (checkPairs r i l).1 := by
  intro i l
  induction l generalizing i with
  | nil => rfl
  | cons p rest ih =>
    obtain ⟨h1, h2⟩ := p
    simp only [List.map_cons, Prod.swap_prod_mk, checkPairs]
    rw [min_comm h2 h1, max_comm h2 h1]
    by_cases c1 : h1 < 5/100 ∧ h2 < 5/100
    · rw [if_pos c1.symm, if_pos c1]; exact ih (i+1)
    · rw [if_neg (fun h => c1 h.symm), if_neg c1]
      by_cases c2 : (h1 < 1/100 ∧ h2 < 15/100) ∨ (h2 < 1/100 ∧ h1 < 15/100)
      · rw [if_pos c2.symm, if_pos c2]; exact ih (i+1)
      · rw [if_neg (fun h => c2 h.symm), if_neg c2]
        by_cases c3 : min h1 h2 < 1/100
        · rw [if_pos c3, if_pos c3]
          by_cases c4 : max h1 h2 < 2/10
          · rw [if_pos c4, if_pos c4]; exact ih (i+1)
          · rw [if_neg c4, if_neg c4]
            by_cases c5 : (100 : ℚ) > r
            · rw [if_pos c5, if_pos c5]
            · rw [if_neg c5, if_neg c5]; exact ih (i+1)
        · rw [if_neg c3, if_neg c3]
          by_cases c6 : max h1 h2 / min h1 h2 > r
          · rw [if_pos c6, if_pos c6]
          · rw [if_neg c6, if_neg c6]; exact ih (i+1)

/-- C6: for all records and all thresholds the boolean component of
`is_clinically_similar` is symmetric in the two records: the count-difference
test and every per-pair skip/ratio rule are invariant under swapping the
arguments. -/
theorem clinically_similar_symm (f1 f2 : FeatureRecord) (r : ℚ) (d : Nat) :
    (is_clinically_similar f1 f2 r d).1 = (is_clinically_similar f2 f1 r d).1 := by
  unfold is_clinically_similar
  have hn : ((f1.num_peaks : Int) - (f2.num_peaks : Int)).natAbs
      = ((f2.num_peaks : Int) - (f1.num_peaks : Int)).natAbs := by
    rw [← neg_sub (f2.num_peaks : Int), Int.natAbs_neg]
  rw [hn]
  by_cases h : ((f2.num_peaks : Int) - (f1.num_peaks : Int)).natAbs > d
  · rw [if_pos h, if_pos h]
  · rw [if_neg h, if_neg h]
    by_cases hg : 0 < f1.num_peaks ∧ 0 < f2.num_peaks
    · rw [if_pos hg, if_pos hg.symm,
        max_comm f2.heights.length f1.heights.length,
        ← List.zip_swap (padTo f1.heights (max f1.heights.length f2.heights.length))
          (padTo f2.heights (max f1.heights.length f2.heights.length))]
      exact (checkPairs_fst_swap r 0 _).symm
    · rw [if_neg hg, if_neg (fun h => hg h.symm)]

/-- C3 counterexample: a record with zero peaks against a record with one
peak of height 0.30 under the default thresholds (count difference 1 ≤ 3,
0.30 ≥ 0.2, ratio bound 2.5 < 100): the claim asserts `is_similar = false`,
but the height comparison is guarded by `num_peaks > 0` on *both* sides, so
the code returns `true`. -/
theorem zero_peak_record_passes_filter :
    (is_clinically_similar ⟨0, []⟩ ⟨1, [3/10]⟩ (5/2) 3).1 = true ∧
    (2/10 : ℚ) ≤ 3/10 ∧ (5/2 : ℚ) < 100 ∧
    ((0 : Int) - (1 : Int)).natAbs ≤ 3 := by
  refine ⟨?_, by norm_num, by norm_num, by norm_num⟩
  norm_num [is_clinically_similar]

/-- Helper for the amended C3: a pair that aligns a padded zero with a real
peak of height ≥ 0.2 makes the pair loop fail whenever the ratio bound is
below 100 (the pair is not skipped, its near-zero minimum is treated as
ratio 100). -/
theorem checkPairs_false_of_padded_pair (r : ℚ) (hr : r < 100) (a : ℚ)
    (ha : 2/10 ≤ a) :
    ∀ (l : List (ℚ × ℚ)), (a, 0) ∈ l → ∀ i, (checkPairs r i l).1 = false := by
  intro l
  induction l with
  | nil => intro h; exact absurd h (List.not_mem_nil _)
  | cons p rest ih =>
    intro hmem i
    obtain ⟨h1, h2⟩ := p
    have h02 : (0 : ℚ) < 2/10 := by norm_num
    rcases List.mem_cons.mp hmem with heq | htail
    · cases heq
      have hc1 : ¬ (a < 5/100 ∧ (0:ℚ) < 5/100) :=
        fun h => absurd h.1 (not_lt.mpr (le_trans (by norm_num) ha))
      have hc2 : ¬ ((a < 1/100 ∧ (0:ℚ) < 15/100) ∨ ((0:ℚ) < 1/100 ∧ a < 15/100)) := by
        rintro (⟨h, _⟩ | ⟨_, h⟩) <;>
          exact absurd h (not_lt.mpr (le_trans (by norm_num) ha))
      have hc3 : min a 0 < 1/100 := lt_of_le_of_lt (min_le_right a 0) (by norm_num)
      have hc4 : ¬ (max a 0 < 2/10) := not_lt.mpr (le_trans ha (le_max_left a 0))
      simp only [checkPairs]
      rw [if_neg hc1, if_neg hc2, if_pos hc3, if_neg hc4, if_pos hr]
    · simp only [checkPairs]
      split_ifs <;> first | rfl | exact ih htail (i+1)

/-- C3 amended: when *both* records have at least one peak, the peak counts
differ by at most `max_peak_count_diff`, and zero-padding aligns a missing
peak of the shorter record against a peak of height ≥ 0.2 of the longer one,
`is_clinically_similar` returns `is_similar = false` for every
`max_concentration_ratio` below 100. -/
theorem padded_peak_rejected (f1 f2 : FeatureRecord) (r : ℚ) (d : Nat) (i : Nat)
    (hn1 : 0 < f1.num_peaks) (hn2 : 0 < f2.num_peaks)
    (hd : ((f1.num_peaks : Int) - (f2.num_peaks : Int)).natAbs ≤ d)
    (hr : r < 100)
    (h2i : f2.heights.length ≤ i) (h1i : i < f1.heights.length)
    (hh : 2/10 ≤ f1.heights[i]) :
    (is_clinically_similar f1 f2 r d).1 = false := by
  unfold is_clinically_similar
  rw [if_neg (not_lt.mpr hd), if_pos ⟨hn1, hn2⟩]
  apply checkPairs_false_of_padded_pair r hr _ hh
  have hlen1 : f1.heights.length ≤ max f1.heights.length f2.heights.length :=
    le_max_left _ _
  have hlen2 : f2.heights.length ≤ max f1.heights.length f2.heights.length :=
    le_max_right _ _
  have hp1 : (padTo f1.heights (max f1.heights.length f2.heights.length)).length
      = max f1.heights.length f2.heights.length := by
    simp only [padTo, List.length_append, List.length_replicate]; omega
  have hp2 : (padTo f2.heights (max f1.heights.length f2.heights.length)).length
      = max f1.heights.length f2.heights.length := by
    simp only [padTo, List.length_append, List.length_replicate]; omega
  have hiz : i < ((padTo f1.heights (max f1.heights.length f2.heights.length)).zip
      (padTo f2.heights (max f1.heights.length f2.heights.length))).length := by
    rw [List.length_zip, hp1, hp2, min_self]
    omega
  rw [List.mem_iff_getElem]
  refine ⟨i, hiz, ?_⟩
  rw [List.getElem_zip, Prod.ext_iff]
  constructor
  · show (padTo f1.heights (max f1.heights.length f2.heights.length))[i] = f1.heights[i]
    simp only [padTo]
    rw [List.getElem_append_left h1i]
  · show (padTo f2.heights (max f1.heights.length f2.heights.length))[i] = 0
    simp only [padTo]
    rw [List.getElem_append_right h2i]
    exact List.getElem_replicate _ _

/-- Closed witness for `padded_peak_rejected`: two peaks [0.25, 0.30] against
one peak [0.25] under the default thresholds. -/
theorem padded_peak_rejected_witness :
    (is_clinically_similar ⟨2, [1/4, 3/10]⟩ ⟨1, [1/4]⟩ (5/2) 3).1 = false :=
  padded_peak_rejected ⟨2, [1/4, 3/10]⟩ ⟨1, [1/4]⟩ (5/2) 3 1
    (by norm_num) (by norm_num) (by norm_num) (by norm_num) (by norm_num)
    (by norm_num) (by norm_num)

/-- C5: candidate heights [0.03, 0.30] vs query heights [0.03, 0.08] under the
default thresholds: the first aligned pair (both < 0.05) is skipped, the second
gives ratio 0.30/0.08 = 3.75 > 2.5 and the filter rejects, the reason citing
peak number 2 (the printed message "Peak #2 concentration too different ..."). -/
theorem ratio_375_rejected :
    is_clinically_similar ⟨2, [3/100, 30/100]⟩ ⟨2, [3/100, 8/100]⟩
        defaultMaxConcentrationRatio defaultMaxPeakCountDiff
      = (false, .peakTooDifferent 2 (30/100) (8/100) (15/4)) ∧
    (ClinReason.peakTooDifferent 2 (30/100) (8/100) (15/4)).text
      = "Peak #2 concentration too different" := by
  constructor
  · norm_num [is_clinically_similar, checkPairs, padTo, min_def, max_def,
      defaultMaxConcentrationRatio, defaultMaxPeakCountDiff]
  · rfl

/-! ## Concentration-label extraction (OCR block of `analyze_image`)

The source applies `re.search` with patterns written as *raw* strings that
contain doubled backslashes, e.g. `r"A2\\s*Concentration[^0-9]*([0-9]+\\.?[0-9]*)\\s*%?"`.
In a raw string `\\` is two characters, which the regex engine reads as an
escaped *literal backslash*; the patterns therefore require backslash
characters in the OCR text.  The patterns are embedded verbatim below. -/

/-- Character-class regular expressions: the fragment needed by the four
concentration patterns (character predicates, concatenation, alternation,
Kleene star). -/
inductive Regex
  | eps
  | pred (p : Char → Bool)
  | seq (r1 r2 : Regex)
  | alt (r1 r2 : Regex)
  | star (r : Regex)

/-- Backtracking matcher over a stack of regexes, mirroring the engine's
greedy, leftmost-alternative exploration: `matchStack fuel full rs s` is true
when the concatenation of `rs` matches a prefix of `s` (all of `s` when
`full`).  The fuel bounds the exploration depth; `reSearch` passes far more
than these patterns can consume. -/
def matchStack : Nat → Bool → List Regex → List Char → Bool
  | 0, _, _, _ => false
  | _+1, full, [], s => !full || s.isEmpty
  | f+1, full, .eps :: rs, s => matchStack f full rs s
  | _+1, _, .pred _ :: _, [] => false
  | f+1, full, .pred p :: rs, c :: cs => p c && matchStack f full rs cs
  | f+1, full, .seq r1 r2 :: rs, s => matchStack f full (r1 :: r2 :: rs) s
  | f+1, full, .alt r1 r2 :: rs, s =>
      matchStack f full (r1 :: rs) s || matchStack f full (r2 :: rs) s
  | f+1, full, .star r :: rs, s =>
      matchStack f full (r :: .star r :: rs) s || matchStack f full rs s

/-- `re.search(r, s) is not None`: try a prefix match at every start
position, left to right. -/
def reSearch (r : Regex) : List Char → Bool
  | [] => matchStack 100000 false [r] []
  | c :: cs => matchStack 100000 false [r] (c :: cs) || reSearch r cs

/-- A single character under `re.IGNORECASE`. -/
def ciChar (c : Char) : Regex := .pred (fun d => d.toLower == c.toLower)

/-- A literal string under `re.IGNORECASE`. -/
def litCI (s : String) : Regex := s.data.foldr (fun c r => .seq (ciChar c) r) .eps

/-- The class `[0-9]`. -/
def digitClass : Regex := .pred (fun c => decide ('0' ≤ c) && decide (c ≤ '9'))

/-- `r?`. -/
def optional (r : Regex) : Regex := .alt r .eps

/-- A literal backslash character (the regex `\\` produced by the doubled
backslash of the source's raw strings). -/
def backslashChar : Regex := .pred (fun c => c == '\\')

/-- `\\s*` as written in the source: a literal backslash followed by zero or
more letters s (case-insensitive). -/
def bsSstar : Regex := .seq backslashChar (.star (ciChar 's'))

/-- The capture group `([0-9]+\\.?[0-9]*)`: one or more digits, a literal
backslash, an optional arbitrary character (the `.` of `.?`), more digits. -/
def numGroup : Regex :=
  .seq digitClass (.seq (.star digitClass)
    (.seq backslashChar (.seq (optional (.pred (fun c => c != '\n')))
      (.star digitClass))))

/-- `[^0-9]*`. -/
def notDigitStar : Regex := .star (.pred (fun c => !(decide ('0' ≤ c) && decide (c ≤ '9'))))

/-- `[^\\d]*` under IGNORECASE: any characters other than a backslash and the
letter d/D (note: digits are *not* excluded by this class). -/
def notBackslashDStar : Regex :=
  .star (.pred (fun c => !(c == '\\') && !(c.toLower == 'd')))

/-- `r"A2\\s*Concentration[^0-9]*([0-9]+\\.?[0-9]*)\\s*%?"` (line 233). -/
def a2Pattern1 : Regex :=
  .seq (litCI "A2") (.seq bsSstar (.seq (litCI "Concentration")
    (.seq notDigitStar (.seq numGroup
      (.seq bsSstar (optional (.pred (fun c => c == '%'))))))))

/-- `r"A2[^\\d]*([0-9]+\\.?[0-9]*)\\s*%?"` (line 235). -/
def a2Pattern2 : Regex :=
  .seq (litCI "A2") (.seq notBackslashDStar (.seq numGroup
    (.seq bsSstar (optional (.pred (fun c => c == '%'))))))

/-- `r"F\\s*Concentration[^0-9]*([0-9]+\\.?[0-9]*)\\s*%?"` (line 236). -/
def fPattern1 : Regex :=
  .seq (litCI "F") (.seq bsSstar (.seq (litCI "Concentration")
    (.seq notDigitStar (.seq numGroup
      (.seq bsSstar (optional (.pred (fun c => c == '%'))))))))

/-- `r"\\bF[^\\d]*([0-9]+\\.?[0-9]*)\\s*%?"` (line 238): the `\\b` is a
literal backslash followed by the letter b, not a word boundary. -/
def fPattern2 : Regex :=
  .seq backslashChar (.seq (ciChar 'b') (.seq (ciChar 'F')
    (.seq notBackslashDStar (.seq numGroup
      (.seq bsSstar (optional (.pred (fun c => c == '%'))))))))

/-- Digit run to a natural number. -/
def digitsToNat (ds : List Char) : Nat :=
  ds.foldl (fun a c => 10 * a + (c.toNat - Char.toNat '0')) 0

/-- Whether a character is an ASCII digit. -/
def isDigitChar (c : Char) : Bool := decide ('0' ≤ c) && decide (c ≤ '9')

/-- The value `float(m.group(1))` of a successful match, modelled as the first
decimal literal `[0-9]+(.[0-9]*)?` occurring in the text (a successful match's
group always starts at such a literal; per-group bookkeeping of the engine is
not modelled).  Unused when no match exists. -/
def firstDecimal : List Char → ℚ
  | [] => 0
  | c :: cs =>
    if isDigitChar c then
      let ip := (c :: cs).takeWhile isDigitChar
      let rest := (c :: cs).dropWhile isDigitChar
      let fp := match rest with
        | d :: ds => if d == '.' then ds.takeWhile isDigitChar else []
        | [] => []
      (digitsToNat ip : ℚ) + (digitsToNat fp : ℚ) / ((10 : ℚ) ^ fp.length)
    else firstDecimal cs

/-- The two-stage A2 extraction (lines 233-235 and 239-240): the explicit
"A2 Concentration" pattern first, then the fallback; `None` when neither
matches. -/
def a2Concentration (t : List Char) : Option ℚ :=
  if reSearch a2Pattern1 t then some (firstDecimal t)
  else if reSearch a2Pattern2 t then some (firstDecimal t)
  else none

/-- The two-stage F extraction (lines 236-238 and 241-242). -/
def fConcentration (t : List Char) : Option ℚ :=
  if reSearch fPattern1 t then some (firstDecimal t)
  else if reSearch fPattern2 t then some (firstDecimal t)
  else none

/-- Outcome of the OCR block of `analyze_image` (lines 210-244): the
cv2/pytesseract calls either raise or produce the concatenated text of the
four candidate crops. -/
inductive OcrOutcome
  | raises
  | text (t : List Char)

/-- The body of the `try` block: may fail (`.error`) before the values are
assigned, otherwise yields the two extracted concentrations. -/
def labelExtraction : OcrOutcome → Except Unit (Option ℚ × Option ℚ)
  | .raises => .error ()
  | .text t => .ok (a2Concentration t, fConcentration t)

/-- Lines 208-246: `a2_val`/`f_val` start as `None`; the `try` block may
overwrite them; `except Exception: pass` swallows every failure, so the stage
always produces a pair and never propagates an error. -/
def labelStage (o : OcrOutcome) : Option ℚ × Option ℚ :=
  match labelExtraction o with
  | .error _ => (none, none)
  | .ok p => p

/-- C2 (code bug): on the OCR text "A2 Concentration 3.5%" both stages of the
A2 pattern fail — the doubled backslashes of the raw-string patterns demand a
literal backslash character right after "A2" (stage 1) resp. inside the number
(stage 2) — so `a2_concentration` is left `None` instead of 3.5; analogously
for "F Concentration 3.5%".  The last conjunct shows the pattern as written
*does* match once the required backslashes are present, pinning the defect on
the doubled backslashes rather than on the model of the matcher. -/
theorem a2_regex_never_matches_plain_text :
    a2Concentration "A2 Concentration 3.5%".data = none ∧
    fConcentration "F Concentration 3.5%".data = none ∧
    labelStage (.text "A2 Concentration 3.5% F Concentration 2.1%".data)
      = (none, none) ∧
    reSearch a2Pattern1 "A2\\Concentration 3\\.5\\%".data = true := by
  refine ⟨by decide, by decide, by decide, by decide⟩

/-! ## Peak detection (`scipy.signal.find_peaks` as called by
`detect_peaks_from_signal`)

The scipy internals `_local_maxima_1d`, `_select_by_peak_distance`,
`_peak_prominences` and `_peak_widths` are modelled from their sources over
exact rationals.  Inner `while` loops are written with a fuel argument; each
caller passes fuel at least the array size, which the loops never exhaust. -/

/-- `np.min` over the signal list (0 for the empty signal, which numpy
rejects with an error; `analyze_image` only passes non-empty profiles). -/
def listMin : List ℚ → ℚ
  | [] => 0
  | h :: t => t.foldl min h

/-- `np.max` over the signal list. -/
def listMax : List ℚ → ℚ
  | [] => 0
  | h :: t => t.foldl max h

/-- Lines 96-97 of `detect_peaks_from_signal`: shift the signal to zero
minimum and divide by the shifted maximum plus 1e-6.  Values change,
positions do not. -/
def normalizeSignal (s : List ℚ) : List ℚ :=
  (s.map (fun v => v - listMin s)).map
    (fun v => v / (listMax (s.map (fun w => w - listMin s)) + 1/1000000))

/-- scipy `_local_maxima_1d` plateau scan: the first index ≥ `j` (capped at
`iMax`) whose value differs from `v`. -/
def plateauEnd (x : Array ℚ) (iMax : Nat) (v : ℚ) : Nat → Nat → Nat
  | 0, j => j
  | fuel+1, j =>
    if j < iMax ∧ x.getD j 0 = v then plateauEnd x iMax v fuel (j+1) else j

/-- scipy `_local_maxima_1d` main loop from index `i`: emit the midpoint of
every maximal plateau strictly above both neighbours; after a hit resume past
the plateau.  Fuel ≥ `iMax - i + 1` runs the loop to completion. -/
def localMaximaAux (x : Array ℚ) (iMax : Nat) : Nat → Nat → List Nat
  | 0, _ => []
  | fuel+1, i =>
    if i < iMax then
      if x.getD (i-1) 0 < x.getD i 0 then
        if x.getD (plateauEnd x iMax (x.getD i 0) x.size (i+1)) 0 < x.getD i 0 then
          (i + (plateauEnd x iMax (x.getD i 0) x.size (i+1) - 1)) / 2
            :: localMaximaAux x iMax fuel (plateauEnd x iMax (x.getD i 0) x.size (i+1) + 1)
        else localMaximaAux x iMax fuel (i+1)
      else localMaximaAux x iMax fuel (i+1)
    else []

/-- scipy `_local_maxima_1d`: the interior local maxima of `x` (plateau
midpoints) in increasing order. -/
def localMaxima (x : Array ℚ) : List Nat := localMaximaAux x (x.size - 1) x.size 1

/-- find_peaks `height` condition: keep peaks whose signal value is at least
`hmin`. -/
def selectByHeight (x : Array ℚ) (hmin : ℚ) (peaks : List Nat) : List Nat :=
  peaks.filter (fun p => decide (hmin ≤ x.getD p 0))

/-- `peaks[keep]`: boolean-mask selection, the mask indexed by list
position. -/
def maskFilter (l : List Nat) (keep : Array Bool) : List Nat :=
  ((List.enumFrom 0 l).filter (fun p => keep.getD p.1 false)).map Prod.snd

/-- Stable ascending argsort of the priority list.  (numpy's default
quicksort is unstable, so equal priorities may be visited in a different
order; no property proved here depends on the tie order.) -/
def argsortAsc (v : List ℚ) : List Nat :=
  (List.range v.length).mergeSort (fun a b => decide (v.getD a 0 ≤ v.getD b 0))

/-- Left inner while loop of scipy `_select_by_peak_distance`: clear the mask
downwards from `k` while the peak sits within `dist` of position `pj`. -/
def killLeft (peaks : Array Nat) (dist pj : Nat) : Nat → Nat → Array Bool → Array Bool
  | 0, _, keep => keep
  | fuel+1, k, keep =>
    if pj - peaks.getD k 0 < dist then
      if k = 0 then keep.setD k false
      else killLeft peaks dist pj fuel (k-1) (keep.setD k false)
    else keep

/-- Right inner while loop of `_select_by_peak_distance`. -/
def killRight (peaks : Array Nat) (dist pj : Nat) : Nat → Nat → Array Bool → Array Bool
  | 0, _, keep => keep
  | fuel+1, k, keep =>
    if k < peaks.size ∧ peaks.getD k 0 - pj < dist then
      killRight peaks dist pj fuel (k+1) (keep.setD k false)
    else keep

/-- Outer loop of `_select_by_peak_distance`: iterate positions by descending
priority; a peak still kept clears its neighbours within `dist` on both
sides. -/
def distanceLoop (peaks : Array Nat) (dist : Nat) : List Nat → Array Bool → Array Bool
  | [], keep => keep
  | j :: rest, keep =>
    if keep.getD j false then
      distanceLoop peaks dist rest
        (killRight peaks dist (peaks.getD j 0) peaks.size (j+1)
          (if j = 0 then keep
           else killLeft peaks dist (peaks.getD j 0) peaks.size (j-1) keep))
    else distanceLoop peaks dist rest keep

/-- scipy `_select_by_peak_distance(peaks, x[peaks], distance)` followed by
`peaks = peaks[keep]`. -/
def selectByPeakDistance (peaks : List Nat) (priority : List ℚ) (dist : Nat) : List Nat :=
  maskFilter peaks
    (distanceLoop peaks.toArray dist ((argsortAsc priority).reverse)
      (mkArray peaks.length true))

/-- Left base walk of scipy `_peak_prominences` (wlen unset ⇒ the window is
the whole signal): scan down from the peak while `x[i] ≤ x[peak]`, tracking
the running minimum and its index. -/
def promLeft (x : Array ℚ) (xp : ℚ) : Nat → Nat → ℚ → Nat → ℚ × Nat
  | 0, _, m, b => (m, b)
  | fuel+1, i, m, b =>
    if x.getD i 0 ≤ xp then
      if x.getD i 0 < m then
        if i = 0 then (x.getD i 0, i)
        else promLeft x xp fuel (i-1) (x.getD i 0) i
      else
        if i = 0 then (m, b)
        else promLeft x xp fuel (i-1) m b
    else (m, b)

/-- Right base walk of `_peak_prominences`. -/
def promRight (x : Array ℚ) (xp : ℚ) (iMaxIdx : Nat) : Nat → Nat → ℚ → Nat → ℚ × Nat
  | 0, _, m, b => (m, b)
  | fuel+1, i, m, b =>
    if i ≤ iMaxIdx ∧ x.getD i 0 ≤ xp then
      if x.getD i 0 < m then promRight x xp iMaxIdx fuel (i+1) (x.getD i 0) i
      else promRight x xp iMaxIdx fuel (i+1) m b
    else (m, b)

/-- scipy `_peak_prominences` for one peak: (prominence, left base, right
base). -/
def peakProminence (x : Array ℚ) (p : Nat) : ℚ × Nat × Nat :=
  (x.getD p 0 - max (promLeft x (x.getD p 0) (p+1) p (x.getD p 0) p).1
      (promRight x (x.getD p 0) (x.size - 1) x.size p (x.getD p 0) p).1,
   (promLeft x (x.getD p 0) (p+1) p (x.getD p 0) p).2,
   (promRight x (x.getD p 0) (x.size - 1) x.size p (x.getD p 0) p).2)

/-- Left intersection walk of scipy `_peak_widths`. -/
def widthLeftIdx (x : Array ℚ) (hEval : ℚ) (lb : Nat) : Nat → Nat → Nat
  | 0, i => i
  | fuel+1, i =>
    if lb < i ∧ hEval < x.getD i 0 then widthLeftIdx x hEval lb fuel (i-1) else i

/-- Right intersection walk of `_peak_widths`. -/
def widthRightIdx (x : Array ℚ) (hEval : ℚ) (rb : Nat) : Nat → Nat → Nat
  | 0, i => i
  | fuel+1, i =>
    if i < rb ∧ hEval < x.getD i 0 then widthRightIdx x hEval rb fuel (i+1) else i

/-- scipy `_peak_widths` at `rel_height = 0.5` for one peak: interpolated full
width at half prominence.  (ℚ division by zero yields 0 where scipy floats
would produce inf/nan; no claim depends on these values.) -/
def peakWidth (x : Array ℚ) (p : Nat) : ℚ :=
  let pr := peakProminence x p
  let hEval := x.getD p 0 - pr.1 * (1/2)
  let il := widthLeftIdx x hEval pr.2.1 x.size p
  let ir := widthRightIdx x hEval pr.2.2 x.size p
  (if x.getD ir 0 < hEval then
      (ir : ℚ) - (hEval - x.getD ir 0) / (x.getD (ir-1) 0 - x.getD ir 0)
    else (ir : ℚ)) -
  (if x.getD il 0 < hEval then
      (il : ℚ) + (hEval - x.getD il 0) / (x.getD (il+1) 0 - x.getD il 0)
    else (il : ℚ))

/-- `scipy.signal.find_peaks` with the height, distance, prominence and width
conditions (exactly those passed by `detect_peaks_from_signal`), applied in
scipy's order: local maxima, then the height, distance, prominence and width
filters. -/
def find_peaks (x : Array ℚ) (prominence height : ℚ) (distance width : Nat) : List Nat :=
  let p1 := selectByHeight x height (localMaxima x)
  let p2 := selectByPeakDistance p1 (p1.map (fun p => x.getD p 0)) distance
  (p2.filter (fun p => decide (prominence ≤ (peakProminence x p).1))).filter
    (fun p => decide ((width : ℚ) ≤ peakWidth x p))

theorem plateauEnd_ge (x : Array ℚ) (iMax : Nat) (v : ℚ) :
    ∀ fuel j, j ≤ plateauEnd x iMax v fuel j := by
  intro fuel
  induction fuel with
  | zero => intro j; exact le_refl j
  | succ f ih =>
    intro j
    simp only [plateauEnd]
    split_ifs with h
    · exact le_trans (Nat.le_succ j) (ih (j+1))
    · exact le_refl j

theorem plateauEnd_le (x : Array ℚ) (iMax : Nat) (v : ℚ) :
    ∀ fuel j, j ≤ iMax → plateauEnd x iMax v fuel j ≤ iMax := by
  intro fuel
  induction fuel with
  | zero => intro j hj; exact hj
  | succ f ih =>
    intro j hj
    simp only [plateauEnd]
    split_ifs with h
    · exact ih (j+1) h.1
    · exact hj

theorem localMaximaAux_mem (x : Array ℚ) (iMax : Nat) :
    ∀ fuel i, ∀ m ∈ localMaximaAux x iMax fuel i, i ≤ m ∧ m < iMax := by
  intro fuel
  induction fuel with
  | zero => intro i m hm; exact absurd hm (List.not_mem_nil m)
  | succ f ih =>
    intro i m hm
    simp only [localMaximaAux] at hm
    split_ifs at hm with h1 h2 h3
    · have hge : i + 1 ≤ plateauEnd x iMax (x.getD i 0) x.size (i+1) :=
        plateauEnd_ge x iMax _ x.size (i+1)
      have hle : plateauEnd x iMax (x.getD i 0) x.size (i+1) ≤ iMax :=
        plateauEnd_le x iMax _ x.size (i+1) h1
      rcases List.mem_cons.mp hm with rfl | hm2
      · omega
      · have := ih _ m hm2
        omega
    · have := ih _ m hm
      omega
    · have := ih _ m hm
      omega
    · exact absurd hm (List.not_mem_nil m)

theorem localMaximaAux_pairwise (x : Array ℚ) (iMax : Nat) :
    ∀ fuel i, (localMaximaAux x iMax fuel i).Pairwise (· < ·) := by
  intro fuel
  induction fuel with
  | zero => intro i; exact List.Pairwise.nil
  | succ f ih =>
    intro i
    simp only [localMaximaAux]
    split_ifs with h1 h2 h3
    · refine List.Pairwise.cons ?_ (ih _)
      intro m hm
      have hmem := localMaximaAux_mem x iMax f _ m hm
      have hge : i + 1 ≤ plateauEnd x iMax (x.getD i 0) x.size (i+1) :=
        plateauEnd_ge x iMax _ x.size (i+1)
      omega
    · exact ih _
    · exact ih _
    · exact List.Pairwise.nil

/-- Every local maximum is an interior index: `1 ≤ m` and `m < size - 1`. -/
theorem localMaxima_mem (x : Array ℚ) :
    ∀ m ∈ localMaxima x, 1 ≤ m ∧ m < x.size - 1 :=
  localMaximaAux_mem x (x.size - 1) x.size 1

theorem localMaxima_pairwise (x : Array ℚ) : (localMaxima x).Pairwise (· < ·) :=
  localMaximaAux_pairwise x (x.size - 1) x.size 1

theorem enumFrom_filter_map_sublist {α : Type} (f : Nat → Bool) :
    ∀ (n : Nat) (l : List α),
      ((((List.enumFrom n l).filter (fun p => f p.1)).map Prod.snd)).Sublist l := by
  intro n l
  induction l generalizing n with
  | nil => simp
  | cons a t ih =>
    simp only [List.enumFrom, List.filter_cons]
    by_cases hf : f (n, a).1
    · rw [if_pos hf, List.map_cons]
      exact List.Sublist.cons₂ a (ih (n+1))
    · rw [if_neg hf]
      exact List.Sublist.cons a (ih (n+1))

theorem maskFilter_sublist (l : List Nat) (keep : Array Bool) :
    (maskFilter l keep).Sublist l :=
  enumFrom_filter_map_sublist (fun i => keep.getD i false) 0 l

theorem selectByPeakDistance_sublist (peaks : List Nat) (priority : List ℚ)
    (dist : Nat) : (selectByPeakDistance peaks priority dist).Sublist peaks :=
  maskFilter_sublist peaks _

theorem find_peaks_sublist (x : Array ℚ) (pr h : ℚ) (d w : Nat) :
    (find_peaks x pr h d w).Sublist (localMaxima x) := by
  simp only [find_peaks]
  exact List.Sublist.trans (List.filter_sublist _)
    (List.Sublist.trans (List.filter_sublist _)
      (List.Sublist.trans (selectByPeakDistance_sublist _ _ _)
        (List.filter_sublist _)))

theorem find_peaks_pairwise (x : Array ℚ) (pr h : ℚ) (d w : Nat) :
    (find_peaks x pr h d w).Pairwise (· < ·) :=
  List.Pairwise.sublist (find_peaks_sublist x pr h d w) (localMaxima_pairwise x)

theorem find_peaks_mem (x : Array ℚ) (pr h : ℚ) (d w : Nat) :
    ∀ p ∈ find_peaks x pr h d w, 1 ≤ p ∧ p < x.size - 1 :=
  fun p hp => localMaxima_mem x p ((find_peaks_sublist x pr h d w).subset hp)

/-! ## `detect_peaks_from_signal` and the escalation ladder of
`analyze_image` -/

/-- The peak information dictionary returned by `detect_peaks_from_signal`
(widths and areas are not modelled; no claim mentions them).
`detection_mode` is written by `analyze_image`. -/
structure PeakInfo where
  num_peaks : Nat
  positions : List Nat
  heights : List ℚ
  signal_length : Nat
  detection_mode : String
deriving DecidableEq

/-- `detect_peaks_from_signal` (peak_analyzer.py lines 81-132): normalize the
signal, run `find_peaks`, read the peak heights off the normalized signal and
sort the per-peak arrays by position (`np.argsort(peaks)` applied to every
array; realized as a stable sort of the (position, height) pairs, which agrees
with numpy because the positions are pairwise distinct). -/
def detect_peaks_from_signal (signal : List ℚ) (prominence height : ℚ)
    (distance width : Nat) : PeakInfo :=
  let s := normalizeSignal signal
  let peaks := find_peaks s.toArray prominence height distance width
  let sorted := (peaks.zip (peaks.map (fun p => s.toArray.getD p 0))).mergeSort
    (fun a b => decide (a.1 ≤ b.1))
  { num_peaks := peaks.length
    positions := sorted.map Prod.fst
    heights := sorted.map Prod.snd
    signal_length := s.length
    detection_mode := "" }

/-- Positions and membership of the by-position pair sort: for a strictly
increasing position list, mapping `fst` over the sorted (position, value)
pairs is still strictly increasing, and its members are original
positions. -/
theorem mergeSort_zip_fst (peaks : List Nat) (vs : List ℚ)
    (hlen : peaks.length ≤ vs.length) (hpw : peaks.Pairwise (· < ·)) :
    (((peaks.zip vs).mergeSort (fun a b => decide (a.1 ≤ b.1))).map Prod.fst).Pairwise (· < ·) ∧
    ∀ p ∈ ((peaks.zip vs).mergeSort (fun a b => decide (a.1 ≤ b.1))).map Prod.fst,
      p ∈ peaks := by
  have hperm : (((peaks.zip vs).mergeSort (fun a b => decide (a.1 ≤ b.1)))).Perm
      (peaks.zip vs) := List.mergeSort_perm _ _
  have hfst : (peaks.zip vs).map Prod.fst = peaks := List.map_fst_zip _ _ hlen
  have hpermFst : ((((peaks.zip vs).mergeSort
      (fun a b => decide (a.1 ≤ b.1))).map Prod.fst)).Perm peaks := by
    have h := hperm.map Prod.fst
    rw [hfst] at h
    exact h
  refine ⟨?_, fun p hp => hpermFst.subset hp⟩
  have hsorted := @List.sorted_mergeSort (Nat × ℚ)
    (fun a b => decide (a.1 ≤ b.1))
    (fun a b c hab hbc =>
      decide_eq_true (le_trans (of_decide_eq_true hab) (of_decide_eq_true hbc)))
    (fun a b => by
      rcases Nat.le_total a.1 b.1 with hle | hle
      · simp [hle]
      · simp [hle])
    (peaks.zip vs)
  have hle : (((peaks.zip vs).mergeSort (fun a b => decide (a.1 ≤ b.1)))).Pairwise
      (fun a b : Nat × ℚ => a.1 ≤ b.1) :=
    hsorted.imp (fun hab => of_decide_eq_true hab)
  have hmaple : ((((peaks.zip vs).mergeSort
      (fun a b => decide (a.1 ≤ b.1))).map Prod.fst)).Pairwise (· ≤ ·) :=
    List.pairwise_map.mpr hle
  have hnd : ((((peaks.zip vs).mergeSort
      (fun a b => decide (a.1 ≤ b.1))).map Prod.fst)).Nodup :=
    hpermFst.symm.nodup (hpw.imp (fun hab => ne_of_lt hab))
  exact List.Sorted.lt_of_le hmaple hnd

/-- The detected positions are pairwise strictly increasing, and every
position is an interior index of the signal. -/
theorem detect_positions_invariant (signal : List ℚ) (pr h : ℚ) (d w : Nat) :
    (detect_peaks_from_signal signal pr h d w).positions.Pairwise (· < ·) ∧
    ∀ p ∈ (detect_peaks_from_signal signal pr h d w).positions,
      1 ≤ p ∧ p + 1 < (detect_peaks_from_signal signal pr h d w).signal_length := by
  simp only [detect_peaks_from_signal]
  have hlen : (find_peaks (normalizeSignal signal).toArray pr h d w).length ≤
      ((find_peaks (normalizeSignal signal).toArray pr h d w).map
        (fun p => (normalizeSignal signal).toArray.getD p 0)).length := by
    rw [List.length_map]
  have hmain := mergeSort_zip_fst
    (find_peaks (normalizeSignal signal).toArray pr h d w)
    ((find_peaks (normalizeSignal signal).toArray pr h d w).map
      (fun p => (normalizeSignal signal).toArray.getD p 0))
    hlen (find_peaks_pairwise _ pr h d w)
  refine ⟨hmain.1, fun p hp => ?_⟩
  have hpPeaks : p ∈ find_peaks (normalizeSignal signal).toArray pr h d w :=
    hmain.2 p hp
  have hbd := find_peaks_mem _ pr h d w p hpPeaks
  have hsz : (normalizeSignal signal).toArray.size = (normalizeSignal signal).length :=
    rfl
  omega

/-- The escalating five-rung ladder of `analyze_image` (lines 150-197):
each later rung runs only when the previous one found fewer than 3 peaks.
Rungs 1-3 read the σ=2.0 profile `s20`, rung 4 the σ=1.0 profile `s10`,
rung 5 the σ=3.0 profile `s30`; the parameters of the bare first call are
the defaults of `detect_peaks_from_signal`. -/
def analyzeImagePeaks (s20 s10 s30 : List ℚ) : PeakInfo :=
  let p1 : PeakInfo := { detect_peaks_from_signal s20 (15/100) (1/10) 20 5 with
    detection_mode := "strict" }
  if p1.num_peaks < 3 then
    let p2 : PeakInfo := { detect_peaks_from_signal s20 (5/100) (5/100) 15 3 with
      detection_mode := "sensitive" }
    if p2.num_peaks < 3 then
      let p3 : PeakInfo := { detect_peaks_from_signal s20 (2/100) (2/100) 8 2 with
        detection_mode := "very_sensitive" }
      if p3.num_peaks < 3 then
        let p4 : PeakInfo := { detect_peaks_from_signal s10 (1/100) (1/100) 5 1 with
          detection_mode := "ultra_sensitive" }
        if p4.num_peaks < 3 then
          { detect_peaks_from_signal s30 (5/1000) (5/1000) 4 1 with
            detection_mode := "ultra_sensitive_wide" }
        else p4
      else p3
    else p2
  else p1

/-- The hypothetical result of each rung of the ladder (before the
`detection_mode` tag is written). -/
def rungResult (s20 s10 s30 : List ℚ) : Fin 5 → PeakInfo
  | ⟨0, _⟩ => detect_peaks_from_signal s20 (15/100) (1/10) 20 5
  | ⟨1, _⟩ => detect_peaks_from_signal s20 (5/100) (5/100) 15 3
  | ⟨2, _⟩ => detect_peaks_from_signal s20 (2/100) (2/100) 8 2
  | ⟨3, _⟩ => detect_peaks_from_signal s10 (1/100) (1/100) 5 1
  | ⟨4, _⟩ => detect_peaks_from_signal s30 (5/1000) (5/1000) 4 1

/-- The `detection_mode` label naming each rung. -/
def rungMode : Fin 5 → String
  | ⟨0, _⟩ => "strict"
  | ⟨1, _⟩ => "sensitive"
  | ⟨2, _⟩ => "very_sensitive"
  | ⟨3, _⟩ => "ultra_sensitive"
  | ⟨4, _⟩ => "ultra_sensitive_wide"

/-- C4: for all signal profiles the ladder returns the result of the first
rung that yields ≥ 3 peaks (or of rung 5), tagged with that rung's
`detection_mode`; every earlier rung yielded fewer than 3 peaks — i.e. rung
k+1 is attempted exactly when rung k found fewer than 3 peaks.  The
parameter tuples and profiles of the rungs are those of `rungResult`:
(0.15, 0.10, 20, 5), (0.05, 0.05, 15, 3), (0.02, 0.02, 8, 2) on the σ=2.0
profile, (0.01, 0.01, 5, 1) on the σ=1.0 profile and
(0.005, 0.005, 4, 1) on the σ=3.0 profile. -/
theorem ladder_escalation (s20 s10 s30 : List ℚ) :
    ∃ k : Fin 5,
      analyzeImagePeaks s20 s10 s30
        = { rungResult s20 s10 s30 k with detection_mode := rungMode k } ∧
      (∀ j : Fin 5, j < k → (rungResult s20 s10 s30 j).num_peaks < 3) ∧
      (k.val < 4 → 3 ≤ (rungResult s20 s10 s30 k).num_peaks) := by
  simp only [analyzeImagePeaks]
  split_ifs with h1 h2 h3 h4
  · refine ⟨⟨4, by norm_num⟩, rfl, ?_, ?_⟩
    · intro j hj
      fin_cases j
      · exact h1
      · exact h2
      · exact h3
      · exact h4
      · exact absurd hj (by decide)
    · intro hk; exact absurd hk (by norm_num)
  · refine ⟨⟨3, by norm_num⟩, rfl, ?_, fun _ => not_lt.mp h4⟩
    intro j hj
    fin_cases j
    · exact h1
    · exact h2
    · exact h3
    · exact absurd hj (by decide)
    · exact absurd hj (by decide)
  · refine ⟨⟨2, by norm_num⟩, rfl, ?_, fun _ => not_lt.mp h3⟩
    intro j hj
    fin_cases j
    · exact h1
    · exact h2
    · exact absurd hj (by decide)
    · exact absurd hj (by decide)
    · exact absurd hj (by decide)
  · refine ⟨⟨1, by norm_num⟩, rfl, ?_, fun _ => not_lt.mp h2⟩
    intro j hj
    fin_cases j
    · exact h1
    · exact absurd hj (by decide)
    · exact absurd hj (by decide)
    · exact absurd hj (by decide)
    · exact absurd hj (by decide)
  · refine ⟨⟨0, by norm_num⟩, rfl, ?_, fun _ => not_lt.mp h1⟩
    intro j hj
    exact absurd hj (by simp [Fin.lt_def])

/-- Positions and signal length of the ladder result satisfy the detector's
invariant (whichever rung won). -/
theorem analyzeImagePeaks_invariant (s20 s10 s30 : List ℚ) :
    (analyzeImagePeaks s20 s10 s30).positions.Pairwise (· < ·) ∧
    ∀ p ∈ (analyzeImagePeaks s20 s10 s30).positions,
      1 ≤ p ∧ p + 1 < (analyzeImagePeaks s20 s10 s30).signal_length := by
  simp only [analyzeImagePeaks]
  split_ifs
  · exact detect_positions_invariant s30 (5/1000) (5/1000) 4 1
  · exact detect_positions_invariant s10 (1/100) (1/100) 5 1
  · exact detect_positions_invariant s20 (2/100) (2/100) 8 2
  · exact detect_positions_invariant s20 (5/100) (5/100) 15 3
  · exact detect_positions_invariant s20 (15/100) (1/10) 20 5

/-- The complete feature record of `analyze_image`. -/
structure Features where
  peaks : PeakInfo
  a2_concentration : Option ℚ
  f_concentration : Option ℚ
  normalized_positions : List ℚ

/-- `analyze_image` (peak_analyzer.py lines 134-255) at the granularity of
the claims: run the escalation ladder on the extracted signal profiles
(σ = 2.0 / 1.0 / 3.0), run the OCR label stage, and — when peaks were found —
divide each position by the signal length (lines 248-253).  The three
intensity statistics are not modelled (no claim mentions them); the
image-processing steps producing the profiles and the OCR text are the
inputs. -/
def analyze_image (s20 s10 s30 : List ℚ) (o : OcrOutcome) : Features :=
  let pi := analyzeImagePeaks s20 s10 s30
  { peaks := pi
    a2_concentration := (labelStage o).1
    f_concentration := (labelStage o).2
    normalized_positions :=
      if 0 < pi.num_peaks then
        pi.positions.map (fun p : Nat => (p : ℚ) / (pi.signal_length : ℚ))
      else [] }

/-- C10: in every feature record produced by `analyze_image`, detected peak
positions are strictly increasing and every normalized position lies in
[0, 1]. -/
theorem positions_sorted_and_normalized (s20 s10 s30 : List ℚ) (o : OcrOutcome) :
    (analyze_image s20 s10 s30 o).peaks.positions.Pairwise (· < ·) ∧
    ∀ q ∈ (analyze_image s20 s10 s30 o).normalized_positions, 0 ≤ q ∧ q ≤ 1 := by
  have hinv := analyzeImagePeaks_invariant s20 s10 s30
  constructor
  · exact hinv.1
  · intro q hq
    simp only [analyze_image] at hq
    by_cases hn : 0 < (analyzeImagePeaks s20 s10 s30).num_peaks
    · rw [if_pos hn] at hq
      obtain ⟨p, hp, rfl⟩ := List.mem_map.mp hq
      have hb := hinv.2 p hp
      have hlpos : (0 : ℚ) < ((analyzeImagePeaks s20 s10 s30).signal_length : ℚ) := by
        exact_mod_cast
          (show 0 < (analyzeImagePeaks s20 s10 s30).signal_length by omega)
      refine ⟨div_nonneg (by positivity) (le_of_lt hlpos), ?_⟩
      rw [div_le_one hlpos]
      exact_mod_cast
        (show p ≤ (analyzeImagePeaks s20 s10 s30).signal_length by omega)
    · rw [if_neg hn] at hq
      exact absurd hq (List.not_mem_nil q)

/-- C9: the concentration-label step never fails the pipeline.
`analyze_image` always returns a complete record whose concentration fields
come from `labelStage` (which maps an OCR exception to `(None, None)` — the
`except Exception: pass` — rather than propagating it); an OCR failure
yields `None` for both fields, and a text on which a two-stage pattern finds
no match yields `None` for the corresponding field. -/
theorem label_failure_never_propagates (s20 s10 s30 : List ℚ) (o : OcrOutcome) :
    ((analyze_image s20 s10 s30 o).a2_concentration = (labelStage o).1 ∧
     (analyze_image s20 s10 s30 o).f_concentration = (labelStage o).2) ∧
    (o = .raises → (analyze_image s20 s10 s30 o).a2_concentration = none ∧
      (analyze_image s20 s10 s30 o).f_concentration = none) ∧
    (∀ t, o = .text t → reSearch a2Pattern1 t = false → reSearch a2Pattern2 t = false →
      (analyze_image s20 s10 s30 o).a2_concentration = none) ∧
    (∀ t, o = .text t → reSearch fPattern1 t = false → reSearch fPattern2 t = false →
      (analyze_image s20 s10 s30 o).f_concentration = none) := by
  refine ⟨⟨rfl, rfl⟩, ?_, ?_, ?_⟩
  · rintro rfl
    exact ⟨rfl, rfl⟩
  · rintro t rfl hm1 hm2
    show (labelStage (.text t)).1 = none
    simp [labelStage, labelExtraction, a2Concentration, hm1, hm2]
  · rintro t rfl hm1 hm2
    show (labelStage (.text t)).2 = none
    simp [labelStage, labelExtraction, fConcentration, hm1, hm2]

/-! ## Hybrid search pipeline (`VisualSearchEngine.search_similar_with_peaks`,
visual_search.py) -/

/-- Default `clip_weight` of `search_similar_with_peaks`
(visual_search.py line 377). -/
def clip_weight_default : ℚ := 6/10

/-- Default `peak_weight` of `search_similar_with_peaks` (line 378). -/
def peak_weight_default : ℚ := 4/10

/-- One CLIP hit entering the re-ranking loop: its CLIP similarity, whether
the per-candidate `try` block raises (image loading or peak analysis
failure), and the peak features of its image. -/
structure Candidate where
  clipSim : ℚ
  analysisFails : Bool
  features : FeatureRecord
deriving DecidableEq

/-- A result dict after re-ranking, with the score fields added at
lines 462-469 and the hybrid score paired with it. -/
structure Scored where
  cand : Candidate
  clip_similarity : ℚ
  peak_similarity : Option ℚ
  hybrid_similarity : ℚ
deriving DecidableEq

/-- The body of the re-ranking loop (lines 423-483) for one candidate.
`psim` stands for `calculate_peak_similarity(query_features, ·)` (its value
involves a real exponential, so it enters as a function of the result
features).  A candidate whose `try` block raises keeps its CLIP score with no
peak similarity (lines 473-483); one failing the permissive hard filter
(ratio 10.0, count diff 5, lines 440-450) is dropped; otherwise the hybrid
score is `clip_weight * clip_sim + peak_weight * peak_sim` (line 459). -/
def rerankOne (psim : FeatureRecord → ℚ) (qf : FeatureRecord) (cw pw : ℚ)
    (c : Candidate) : Option Scored :=
  if c.analysisFails then some ⟨c, c.clipSim, none, c.clipSim⟩
  else if (is_clinically_similar qf c.features 10 5).1 = false then none
  else some ⟨c, c.clipSim, some (psim c.features),
    cw * c.clipSim + pw * psim c.features⟩

/-- Lines 421-486: the re-ranking loop over all candidates followed by
`hybrid_results.sort(key=lambda x: x[1], reverse=True)` — a stable
descending sort by hybrid score, realized by `mergeSort` with the matching
comparator (both keep the original order of equal scores). -/
def rerankAll (psim : FeatureRecord → ℚ) (qf : FeatureRecord) (cw pw : ℚ)
    (cands : List Candidate) : List Scored :=
  (cands.filterMap (rerankOne psim qf cw pw)).mergeSort
    (fun a b => decide (b.hybrid_similarity ≤ a.hybrid_similarity))

/-- Python whitespace for `str.strip`. -/
def isPyWhitespace (c : Char) : Bool :=
  c == ' ' || c == '\t' || c == '\n' || c == '\r' || c == '\x0b' || c == '\x0c'

/-- Python `str.strip()`. -/
def pyStrip (l : List Char) : List Char :=
  ((l.dropWhile isPyWhitespace).reverse.dropWhile isPyWhitespace).reverse

/-- Whether `needle` begins `hay`. -/
def startsWithChars : List Char → List Char → Bool
  | [], _ => true
  | _ :: _, [] => false
  | a :: as, b :: bs => a == b && startsWithChars as bs

/-- Python substring test `needle in hay`. -/
def containsChars (needle : List Char) : List Char → Bool
  | [] => needle.isEmpty
  | c :: cs => startsWithChars needle (c :: cs) || containsChars needle cs

/-- `"YES" in llm_response.strip().upper()` (line 277-280). -/
def containsYES (s : String) : Bool :=
  containsChars "YES".data ((pyStrip s.data).map Char.toUpper)

/-- Outcome of the vision-API call inside `llm_compare_chromatographs`. -/
inductive CallOutcome
  | httpFailure            -- any exception in the try block, incl. the 30 s timeout
  | response (s : String)  -- the completed call's message content
deriving DecidableEq

/-- `llm_compare_chromatographs` (lines 205-287): YES in the answer means
similar; any exception or timeout returns True — "If LLM fails, don't filter
out (permissive fallback)". -/
def llm_compare_chromatographs (o : CallOutcome) : Bool :=
  match o with
  | .httpFailure => true
  | .response s => if containsYES s then true else false

/-- Per-candidate outcome of the screening stage (lines 494-530). -/
inductive ScreenOutcome
  | loadFailure        -- Image.open raised: the candidate never enters the task list
  | gatherException    -- asyncio.gather surfaced an exception for this task
  | call (o : CallOutcome)
deriving DecidableEq

/-- Whether the screening loop keeps a candidate (lines 504-530): an
exception surfaced through the gathered batch keeps it, a completed call
keeps it iff `llm_compare_chromatographs` returned True (always the case
when the call itself failed), a load failure drops it. -/
def keepsCandidate : ScreenOutcome → Bool
  | .loadFailure => false
  | .gatherException => true
  | .call o => llm_compare_chromatographs o

/-- STEP 2 (lines 488-541): with screening enabled, the top `2*top_k` sorted
results are screened and the survivors kept in their order; if the whole
screening block raises (`batchFailure`, line 532-534) every result is
kept. -/
def screenStage (oc : Scored → ScreenOutcome) (batchFailure : Bool) (k : Nat)
    (l : List Scored) : List Scored :=
  if batchFailure then l
  else (l.take (2 * k)).filter (fun s => keepsCandidate (oc s))

/-- `search_similar_with_peaks` from the re-ranking loop on (lines 421-552):
re-rank and sort, optionally LLM-screen, return the top `top_k` results with
their scores. -/
def search_similar_with_peaks (psim : FeatureRecord → ℚ) (qf : FeatureRecord)
    (cw pw : ℚ) (top_k : Nat) (llmScreen : Bool) (oc : Scored → ScreenOutcome)
    (batchFailure : Bool) (cands : List Candidate) : List Scored :=
  if llmScreen then
    (screenStage oc batchFailure top_k (rerankAll psim qf cw pw cands)).take top_k
  else (rerankAll psim qf cw pw cands).take top_k

/-- C1 counterexample: the default weights at lines 377-378 are
clip 0.6 / peak 0.4; the claimed defaults 0.40/0.60 are what api.py passes
*explicitly*, overriding the defaults. -/
theorem default_weights_not_04_06 :
    ¬ (clip_weight_default = 4/10 ∧ peak_weight_default = 6/10) := by
  intro h
  exact absurd h.1 (by norm_num [clip_weight_default])

/-- C1 amended: when the caller does not override the weights, every
candidate surviving the filter with successful analysis gets combined score
0.60 × CLIP similarity + 0.40 × peak similarity: the defaults are
clip_weight = 0.60 and peak_weight = 0.40. -/
theorem default_hybrid_score (psim : FeatureRecord → ℚ) (qf : FeatureRecord)
    (c : Candidate) (hc : c.analysisFails = false)
    (hs : (is_clinically_similar qf c.features 10 5).1 = true) :
    rerankOne psim qf clip_weight_default peak_weight_default c
      = some ⟨c, c.clipSim, some (psim c.features),
          (6/10) * c.clipSim + (4/10) * psim c.features⟩ := by
  simp [rerankOne, hc, hs, clip_weight_default, peak_weight_default]

/-- Closed witness for `default_hybrid_score`. -/
theorem default_hybrid_score_witness :
    rerankOne (fun _ => 1/2) ⟨1, [1/2]⟩ clip_weight_default peak_weight_default
        ⟨1/2, false, ⟨1, [1/2]⟩⟩
      = some ⟨⟨1/2, false, ⟨1, [1/2]⟩⟩, 1/2, some ((fun _ : FeatureRecord => (1:ℚ)/2) ⟨1, [1/2]⟩),
          (6/10) * (1/2) + (4/10) * ((fun _ : FeatureRecord => (1:ℚ)/2) ⟨1, [1/2]⟩)⟩ :=
  default_hybrid_score (fun _ => 1/2) ⟨1, [1/2]⟩ ⟨1/2, false, ⟨1, [1/2]⟩⟩ rfl
    (by norm_num [is_clinically_similar, checkPairs, padTo, min_def, max_def])

/-- C7 counterexample: a completed screening call answering "MAYBE" — not an
explicit "no"; the answer does not even contain "NO" — still removes the
candidate, because the loop keeps only answers containing "YES". -/
theorem non_no_answer_removed :
    keepsCandidate (.call (.response "MAYBE")) = false ∧
    containsChars "NO".data ((pyStrip "MAYBE".data).map Char.toUpper) = false := by
  exact ⟨by decide, by decide⟩

/-- C7 amended: screening is fail-open for *failures* — a failed or timed-out
`llm_compare_chromatographs` call yields approval, and an exception surfaced
through the gathered batch keeps the candidate with its score — and a
screened candidate is removed exactly when its image fails to load or its
call completes with an answer not containing "YES" (not only on an explicit
"no"). -/
theorem screening_fail_open (oc : Scored → ScreenOutcome) (k : Nat)
    (l : List Scored) (s : Scored) (hmem : s ∈ l.take (2 * k)) :
    llm_compare_chromatographs .httpFailure = true ∧
    ((oc s = .gatherException ∨ oc s = .call .httpFailure) →
      s ∈ screenStage oc false k l) ∧
    (s ∉ screenStage oc false k l ↔
      (oc s = .loadFailure ∨
        ∃ a, oc s = .call (.response a) ∧ containsYES a = false)) := by
  refine ⟨rfl, ?_, ?_⟩
  · rintro (h | h) <;>
      simp [screenStage, List.mem_filter, hmem, keepsCandidate, h,
        llm_compare_chromatographs]
  · simp only [screenStage, Bool.false_eq_true, if_false]
    rw [List.mem_filter]
    constructor
    · intro hnot
      have hk : keepsCandidate (oc s) = false := by
        by_contra hkk
        exact hnot ⟨hmem, by simpa using Bool.not_eq_false _ |>.mp hkk⟩
      cases hoc : oc s with
      | loadFailure => exact Or.inl rfl
      | gatherException => rw [hoc] at hk; cases hk
      | call o =>
        cases o with
        | httpFailure => rw [hoc] at hk; cases hk
        | response a =>
          refine Or.inr ⟨a, rfl, ?_⟩
          rw [hoc] at hk
          simpa [keepsCandidate, llm_compare_chromatographs] using hk
    · rintro (h | ⟨a, ha, hy⟩) hmemf
      · have hkept := hmemf.2
        rw [h] at hkept
        cases hkept
      · have hkept := hmemf.2
        rw [ha] at hkept
        simp [keepsCandidate, llm_compare_chromatographs, hy] at hkept

/-- Closed witness for `screening_fail_open`. -/
theorem screening_fail_open_witness :
    llm_compare_chromatographs .httpFailure = true ∧
    ((( fun _ : Scored => ScreenOutcome.gatherException) ⟨⟨0, false, ⟨0, []⟩⟩, 0, none, 0⟩
        = .gatherException ∨
      (fun _ : Scored => ScreenOutcome.gatherException) ⟨⟨0, false, ⟨0, []⟩⟩, 0, none, 0⟩
        = .call .httpFailure) →
      (⟨⟨0, false, ⟨0, []⟩⟩, 0, none, 0⟩ : Scored) ∈
        screenStage (fun _ => ScreenOutcome.gatherException) false 1
          [⟨⟨0, false, ⟨0, []⟩⟩, 0, none, 0⟩]) ∧
    ((⟨⟨0, false, ⟨0, []⟩⟩, 0, none, 0⟩ : Scored) ∉
        screenStage (fun _ => ScreenOutcome.gatherException) false 1
          [⟨⟨0, false, ⟨0, []⟩⟩, 0, none, 0⟩] ↔
      ((fun _ : Scored => ScreenOutcome.gatherException) ⟨⟨0, false, ⟨0, []⟩⟩, 0, none, 0⟩
          = .loadFailure ∨
        ∃ a, (fun _ : Scored => ScreenOutcome.gatherException) ⟨⟨0, false, ⟨0, []⟩⟩, 0, none, 0⟩
            = .call (.response a) ∧ containsYES a = false)) :=
  screening_fail_open (fun _ => ScreenOutcome.gatherException) 1
    [⟨⟨0, false, ⟨0, []⟩⟩, 0, none, 0⟩] ⟨⟨0, false, ⟨0, []⟩⟩, 0, none, 0⟩
    (by decide)

/-- C8: the final result list is an order-preserving sublist of the candidate
list sorted descending by combined score before screening (`rerankAll`, which
is sorted by construction): screening only removes candidates, never reorders
survivors, and with screening disabled the output is exactly the top-k prefix
of the sorted list. -/
theorem final_results_sublist_of_sorted (psim : FeatureRecord → ℚ)
    (qf : FeatureRecord) (cw pw : ℚ) (k : Nat) (llmScreen : Bool)
    (oc : Scored → ScreenOutcome) (batchFailure : Bool) (cands : List Candidate) :
    (rerankAll psim qf cw pw cands).Pairwise
      (fun a b => b.hybrid_similarity ≤ a.hybrid_similarity) ∧
    (search_similar_with_peaks psim qf cw pw k llmScreen oc batchFailure cands).Sublist
      (rerankAll psim qf cw pw cands) ∧
    (llmScreen = false →
      search_similar_with_peaks psim qf cw pw k llmScreen oc batchFailure cands
        = (rerankAll psim qf cw pw cands).take k) := by
  refine ⟨?_, ?_, ?_⟩
  · have hsorted := @List.sorted_mergeSort Scored
      (fun a b => decide (b.hybrid_similarity ≤ a.hybrid_similarity))
      (fun a b c hab hbc =>
        decide_eq_true (le_trans (of_decide_eq_true hbc) (of_decide_eq_true hab)))
      (fun a b => by
        rcases le_total a.hybrid_similarity b.hybrid_similarity with hle | hle
        · simp [hle]
        · simp [hle])
      ((cands.filterMap (rerankOne psim qf cw pw)))
    exact hsorted.imp (fun hab => of_decide_eq_true hab)
  · simp only [search_similar_with_peaks]
    by_cases hscr : llmScreen = true
    · rw [if_pos hscr]
      simp only [screenStage]
      by_cases hb : batchFailure = true
      · rw [if_pos hb]; exact List.take_sublist _ _
      · rw [if_neg hb]
        exact List.Sublist.trans (List.take_sublist _ _)
          (List.Sublist.trans (List.filter_sublist _) (List.take_sublist _ _))
    · rw [if_neg hscr]; exact List.take_sublist _ _
  · intro h
    simp [search_similar_with_peaks, h]

end HbPattern
